import Mathlib

/-!
Verification of the orchestration core of the libafl-sample fuzzer
(`src/main.rs`).  The single Rust source file configures a coverage-guided
fuzzer: a shared coverage map observed after each execution, an admission
feedback `feedback_or!(MaxMapFeedback, TimeFeedback)`, an objective
feedback `feedback_and_fast!(MaxMapFeedback, CrashFeedback)`, an in-memory
corpus, an on-disk solutions store at "./timeouts", a forkserver executor
wrapped with a fixed 5-second timeout, seed loading when the corpus is
empty, and token-dictionary loading when no `Tokens` metadata is present.

Library semantics (the LibAFL crate) are not part of the repository's
sources; where a claim depends on them they are modelled from the spec,
marked `Modelled from the spec:` in the doc comment.  Everything else is
a direct shallow embedding of `src/main.rs`.
-/

/-- The constant `MAP_SIZE` from `main.rs`: the size of the shared
coverage map. -/
def MAP_SIZE : Nat := 65536

/-- Classification of one execution of the target, per the spec's
per-execution state machine `{Completed | Crashed | TimedOut}`. -/
inductive ExitKind where
  | completed
  | crashed
  | timedOut
deriving DecidableEq, Repr

/-- The observable signals of one execution: the coverage-map snapshot
taken by the map observer, the exit classification, and the wall-clock
duration (milliseconds) recorded by the time observer. -/
structure Exec where
  coverage : List Nat
  exitKind : ExitKind
  duration : Nat
deriving DecidableEq, Repr

/-- Modelled from the spec: `MaxMapFeedback`'s interestingness test — the
execution is interesting when some map entry exceeds the feedback's
running "best seen" history at that index. -/
def maxMapIsInteresting (hist cov : List Nat) : Bool :=
  (List.zip hist cov).any (fun p => decide (p.1 < p.2))

/-- Modelled from the spec: `MaxMapFeedback`'s history update — the
pointwise maximum of the old history and the observed map. -/
def maxMapUpdate (hist cov : List Nat) : List Nat :=
  List.zipWith max hist cov

/-- The three leaf feedback kinds appearing in `main.rs`:
`MaxMapFeedback`, `CrashFeedback`, `TimeFeedback`. -/
inductive LeafKind where
  | maxMap
  | crash
  | time
deriving DecidableEq, Repr

/-- Feedback combinator tree, the closed set of variants suggested by the
spec's design notes: leaves, eager OR (`feedback_or!`) and
short-circuiting AND (`feedback_and_fast!`). -/
inductive Feedback where
  | leaf (k : LeafKind)
  | orEager (a b : Feedback)
  | andFast (a b : Feedback)
deriving DecidableEq, Repr

/-- Mutable state owned by one feedback tree: the `MaxMapFeedback`
history map and the duration last recorded by `TimeFeedback` (the
metadata it attaches to Testcases). -/
structure FbState where
  hist : List Nat
  timeMeta : Option Nat
deriving DecidableEq, Repr

/-- Modelled from the spec: evaluation of one leaf feedback on one
execution.  `MaxMapFeedback` reports novelty and raises its history;
`CrashFeedback` fires exactly on a crash exit; `TimeFeedback` always
returns `false` and only records the duration as metadata. -/
def evalLeaf (k : LeafKind) (s : FbState) (e : Exec) : Bool × FbState :=
  match k with
  | .maxMap =>
      (maxMapIsInteresting s.hist e.coverage,
       { s with hist := maxMapUpdate s.hist e.coverage })
  | .crash => (decide (e.exitKind = ExitKind.crashed), s)
  | .time => (false, { s with timeMeta := some e.duration })

/-- Modelled from the spec: evaluation of a feedback tree on one
execution.  Returns the verdict, the updated feedback state, and the
list of leaves actually evaluated, in evaluation order.  `orEager`
evaluates both children unconditionally; `andFast` evaluates its first
child and skips the second when the first is `false`. -/
def evalFb : Feedback → FbState → Exec → Bool × FbState × List LeafKind
  | .leaf k, s, e => ((evalLeaf k s e).1, (evalLeaf k s e).2, [k])
  | .orEager a b, s, e =>
      let ra := evalFb a s e
      let rb := evalFb b ra.2.1 e
      (ra.1 || rb.1, rb.2.1, ra.2.2 ++ rb.2.2)
  | .andFast a b, s, e =>
      let ra := evalFb a s e
      if ra.1 then
        let rb := evalFb b ra.2.1 e
        (ra.1 && rb.1, rb.2.1, ra.2.2 ++ rb.2.2)
      else (false, ra.2.1, ra.2.2)

/-- The admission feedback of `main.rs`:
`feedback_or!(MaxMapFeedback::tracking(&map_observer, true, false),
TimeFeedback::with_observer(&time_observer))`. -/
def feedback : Feedback := .orEager (.leaf .maxMap) (.leaf .time)

/-- The objective feedback of `main.rs`:
`feedback_and_fast!(MaxMapFeedback::new(&map_observer),
CrashFeedback::new())` — note the map feedback is the first argument. -/
def objective : Feedback := .andFast (.leaf .maxMap) (.leaf .crash)

/-- Shared helper: the admission feedback evaluates its map leaf then its
time leaf; its verdict is the map verdict, and it records the duration. -/
theorem evalFb_feedback_eq (s : FbState) (e : Exec) :
    evalFb feedback s e =
      (maxMapIsInteresting s.hist e.coverage,
       { hist := maxMapUpdate s.hist e.coverage, timeMeta := some e.duration },
       [LeafKind.maxMap, LeafKind.time]) := by
  simp [evalFb, feedback, evalLeaf]

/-- C1 (counterexample): on an execution that did not crash but produced
novel coverage, the crash predicate is `false` and yet the coverage
predicate is evaluated by the objective evaluator — refuting the claim
that the crash predicate is checked first and guards the coverage
predicate. -/
theorem c1_objective_counterexample :
    (evalLeaf .crash ⟨[0], none⟩ ⟨[1], .completed, 0⟩).1 = false ∧
      LeafKind.maxMap ∈ (evalFb objective ⟨[0], none⟩ ⟨[1], .completed, 0⟩).2.2 := by
  decide

/-- C1 (amended): in the Objective evaluator, the coverage predicate is
checked first; if the coverage predicate is false, the crash predicate
is not evaluated. -/
theorem c1_objective_and_fast_order (s : FbState) (e : Exec)
    (h : maxMapIsInteresting s.hist e.coverage = false) :
    LeafKind.crash ∉ (evalFb objective s e).2.2 := by
  simp [evalFb, objective, evalLeaf, h]

/-- C1 witness: concrete instantiation of the amended order theorem. -/
theorem c1_objective_and_fast_order_witness :
    LeafKind.crash ∉ (evalFb objective ⟨[5], none⟩ ⟨[3], .crashed, 0⟩).2.2 :=
  c1_objective_and_fast_order ⟨[5], none⟩ ⟨[3], .crashed, 0⟩ (by decide)

/-- The admission feedback's state after a sequence of executions, each
processed by `evalFb feedback`. -/
def fbStateAfter (s : FbState) (es : List Exec) : FbState :=
  es.foldl (fun s e => (evalFb feedback s e).2.1) s

/-- Shared helper: one `MaxMapFeedback` update never lowers any history
entry (comparing via `getD` with default `0`). -/
theorem getD_le_maxMapUpdate (hist cov : List Nat) (i : Nat)
    (hlen : hist.length ≤ cov.length) :
    hist.getD i 0 ≤ (maxMapUpdate hist cov).getD i 0 := by
  induction hist generalizing cov i with
  | nil => simp
  | cons x hs ih =>
      cases cov with
      | nil => simp at hlen
      | cons y cs =>
          cases i with
          | zero => simp [maxMapUpdate]
          | succ j =>
              simp only [maxMapUpdate, List.zipWith_cons_cons, List.getD_cons_succ]
              exact ih cs j (Nat.le_of_succ_le_succ hlen)

/-- Shared helper: `MaxMapFeedback`'s update preserves the history length
when the observed map is at least as long. -/
theorem length_maxMapUpdate (hist cov : List Nat)
    (hlen : hist.length ≤ cov.length) :
    (maxMapUpdate hist cov).length = hist.length := by
  simp [maxMapUpdate, List.length_zipWith, Nat.min_eq_left hlen]

/-- C3: across any sequence of executions whose coverage snapshots are at
least as long as the admission feedback's history, the "previously seen"
history map is monotonically non-decreasing at every index, and an entry
once positive never returns to zero. -/
theorem c3_admission_history_monotone (s : FbState) (es : List Exec) (i : Nat)
    (hlen : ∀ e ∈ es, s.hist.length ≤ e.coverage.length) :
    s.hist.getD i 0 ≤ (fbStateAfter s es).hist.getD i 0 ∧
      (0 < s.hist.getD i 0 → 0 < (fbStateAfter s es).hist.getD i 0) := by
  have main : ∀ (es : List Exec) (s : FbState),
      (∀ e ∈ es, s.hist.length ≤ e.coverage.length) →
      s.hist.getD i 0 ≤ (fbStateAfter s es).hist.getD i 0 := by
    intro es
    induction es with
    | nil => intro s _; simp [fbStateAfter]
    | cons e es ih =>
        intro s hlen
        have he : s.hist.length ≤ e.coverage.length := hlen e (by simp)
        have hstep : s.hist.getD i 0 ≤
            ((evalFb feedback s e).2.1).hist.getD i 0 := by
          rw [evalFb_feedback_eq]
          exact getD_le_maxMapUpdate s.hist e.coverage i he
        have hunfold : fbStateAfter s (e :: es) =
            fbStateAfter ((evalFb feedback s e).2.1) es := rfl
        have htail : ((evalFb feedback s e).2.1).hist.getD i 0 ≤
            (fbStateAfter ((evalFb feedback s e).2.1) es).hist.getD i 0 := by
          apply ih
          intro e' he'
          rw [evalFb_feedback_eq]
          simpa [length_maxMapUpdate s.hist e.coverage he] using
            hlen e' (by simp [he'])
        rw [hunfold]
        exact Nat.le_trans hstep htail
  refine ⟨main es s hlen, fun hpos => Nat.lt_of_lt_of_le hpos (main es s hlen)⟩

/-- C3 witness: concrete instantiation of the monotonicity theorem. -/
theorem c3_admission_history_monotone_witness :
    (FbState.mk [1, 0] none).hist.getD 0 0 ≤
        (fbStateAfter ⟨[1, 0], none⟩ [⟨[0, 2], .completed, 3⟩]).hist.getD 0 0 ∧
      (0 < (FbState.mk [1, 0] none).hist.getD 0 0 →
        0 < (fbStateAfter ⟨[1, 0], none⟩ [⟨[0, 2], .completed, 3⟩]).hist.getD 0 0) :=
  c3_admission_history_monotone ⟨[1, 0], none⟩ [⟨[0, 2], .completed, 3⟩] 0
    (by decide)

/-- C2: the admission feedback is the OR of the coverage feedback and the
time feedback; the time component contributes `false` to the verdict
(so the overall verdict equals the coverage verdict) while recording
the execution's duration as metadata. -/
theorem c2_admission_or_time_false (s : FbState) (e : Exec) :
    evalFb feedback s e =
      (maxMapIsInteresting s.hist e.coverage,
       { hist := maxMapUpdate s.hist e.coverage, timeMeta := some e.duration },
       [LeafKind.maxMap, LeafKind.time]) :=
  evalFb_feedback_eq s e

/-- Shared helper: the objective evaluator's verdict is the conjunction
of its map feedback's novelty verdict and the crash test. -/
theorem evalFb_objective_verdict (s : FbState) (e : Exec) :
    (evalFb objective s e).1 =
      (maxMapIsInteresting s.hist e.coverage &&
        decide (e.exitKind = ExitKind.crashed)) := by
  cases h : maxMapIsInteresting s.hist e.coverage with
  | false => simp [evalFb, objective, evalLeaf, h]
  | true => simp [evalFb, objective, evalLeaf, h]

/-- C4: a positive objective verdict implies both a crash exit and a
non-empty coverage snapshot (some map entry is positive); and an
execution classified as `timedOut` never yields a positive objective
verdict. -/
theorem c4_objective_strictness (s : FbState) (e : Exec) :
    ((evalFb objective s e).1 = true →
      e.exitKind = ExitKind.crashed ∧
        e.coverage.any (fun c => decide (0 < c)) = true) ∧
      (e.exitKind = ExitKind.timedOut → (evalFb objective s e).1 = false) := by
  constructor
  · intro h
    rw [evalFb_objective_verdict] at h
    have hmap := (Bool.and_eq_true _ _).mp h |>.1
    have hcrash := of_decide_eq_true ((Bool.and_eq_true _ _).mp h |>.2)
    refine ⟨hcrash, ?_⟩
    rw [maxMapIsInteresting, List.any_eq_true] at hmap
    obtain ⟨p, hp, hlt⟩ := hmap
    rw [List.any_eq_true]
    exact ⟨p.2, (List.of_mem_zip hp).2,
      decide_eq_true (Nat.lt_of_le_of_lt (Nat.zero_le p.1) (of_decide_eq_true hlt))⟩
  · intro h
    rw [evalFb_objective_verdict]
    simp [h]

/-- C4 witness: concrete instantiations discharging both hypotheses. -/
theorem c4_objective_strictness_witness :
    ((⟨[1], ExitKind.crashed, 0⟩ : Exec).exitKind = ExitKind.crashed ∧
      (⟨[1], ExitKind.crashed, 0⟩ : Exec).coverage.any
        (fun c => decide (0 < c)) = true) ∧
      (evalFb objective ⟨[0], none⟩ ⟨[1], ExitKind.timedOut, 0⟩).1 = false :=
  ⟨(c4_objective_strictness ⟨[0], none⟩ ⟨[1], ExitKind.crashed, 0⟩).1 (by decide),
   (c4_objective_strictness ⟨[0], none⟩ ⟨[1], ExitKind.timedOut, 0⟩).2 rfl⟩

/-- A Testcase: the candidate input bytes plus the execution-time
metadata attached by `TimeFeedback`. -/
structure Testcase where
  input : List Nat
  execTimeMeta : Option Nat
deriving DecidableEq, Repr

/-- The fuzzer state assembled in `main.rs`: the in-memory corpus
(`InMemoryCorpus`), the solutions store (`OnDiskCorpus`), the two
feedback states (admission and objective, owned by the fuzzer), the
`Tokens` dictionary metadata, and a record of the durable writes made to
the solutions directory (path paired with testcase). -/
structure FuzzState where
  corpus : List Testcase
  solutions : List Testcase
  fb : FbState
  obj : FbState
  tokens : Option (List (List Nat))
  diskWrites : List (String × Testcase)
deriving DecidableEq, Repr

/-- The path of the on-disk solutions corpus in `main.rs`:
`OnDiskCorpus::new(PathBuf::from("./timeouts"))`. -/
def solutionsPath : String := "./timeouts"

/-- Modelled from the spec: the fuzzer's per-execution processing (the
LibAFL `StdFuzzer` evaluation step, absent from the repository's
sources).  The objective evaluator runs first; when it fires, the
testcase is appended to Solutions and immediately written durably to the
solutions directory.  Otherwise the admission feedback runs; when it
fires, the testcase — annotated with the duration recorded by
`TimeFeedback` — is appended to the Corpus.  Per the spec's
error-handling taxonomy, a candidate is either discarded, admitted to
Corpus, or admitted to Solutions; nothing is ever removed. -/
def processExecution (st : FuzzState) (inp : List Nat) (e : Exec) : FuzzState :=
  let ro := evalFb objective st.obj e
  if ro.1 then
    { st with obj := ro.2.1,
              solutions := st.solutions ++ [⟨inp, none⟩],
              diskWrites := st.diskWrites ++ [(solutionsPath, ⟨inp, none⟩)] }
  else
    let rf := evalFb feedback st.fb e
    if rf.1 then
      { st with obj := ro.2.1, fb := rf.2.1,
                corpus := st.corpus ++ [⟨inp, rf.2.1.timeMeta⟩] }
    else { st with obj := ro.2.1, fb := rf.2.1 }

/-- C5 (counterexample): on an execution that both crashes and exhibits
novel coverage, the Admission feedback returns true and yet no Testcase
is appended to the Corpus (the execution is classified as an objective
and goes only to Solutions) — refuting "appended to the Corpus exactly
when the Admission feedback returns true". -/
theorem c5_corpus_counterexample :
    (evalFb feedback (FbState.mk [0] none) ⟨[1], .crashed, 5⟩).1 = true ∧
      (processExecution ⟨[], [], ⟨[0], none⟩, ⟨[0], none⟩, none, []⟩ [7]
          ⟨[1], .crashed, 5⟩).corpus = [] := by
  decide

/-- C5 (amended): a Testcase is appended to the Corpus exactly when the
Admission feedback returns true and the Objective feedback returns
false; a Testcase is appended to Solutions exactly when the Objective
feedback returns true, in which case it is immediately written durably
to the solutions directory; all three stores only ever grow by
appending — nothing is removed. -/
theorem c5_store_insertion (st : FuzzState) (inp : List Nat) (e : Exec) :
    (processExecution st inp e).corpus = st.corpus ++
        (if (evalFb objective st.obj e).1 = false ∧
            (evalFb feedback st.fb e).1 = true
         then [⟨inp, (evalFb feedback st.fb e).2.1.timeMeta⟩] else []) ∧
      (processExecution st inp e).solutions = st.solutions ++
        (if (evalFb objective st.obj e).1 = true then [⟨inp, none⟩] else []) ∧
      (processExecution st inp e).diskWrites = st.diskWrites ++
        (if (evalFb objective st.obj e).1 = true
         then [(solutionsPath, ⟨inp, none⟩)] else []) := by
  cases ho : (evalFb objective st.obj e).1 with
  | true => simp [processExecution, ho]
  | false =>
      cases hf : (evalFb feedback st.fb e).1 with
      | true => simp [processExecution, ho, hf]
      | false => simp [processExecution, ho, hf]

/-- Modelled from the spec: `load_initial_inputs` — read the files of the
seed directory (`none` models an unreadable directory), run each one
through the executor `execF` and the feedback evaluator, and fail when
the directory is unreadable or no seed loads successfully. -/
def loadInitialInputs (st : FuzzState) (seedFiles : Option (List (List Nat)))
    (execF : List Nat → Exec) : Except String FuzzState :=
  match seedFiles with
  | none => .error "Failed to load initial corpus"
  | some files =>
      if files.isEmpty then .error "Failed to load initial corpus"
      else .ok (files.foldl (fun s f => processExecution s f (execF f)) st)

/-- The seed-loading step of `main.rs`: run `load_initial_inputs` on the
"./corpus" directory exactly when the corpus holds fewer than one entry
(`state.corpus().count() < 1`); a loading failure panics, modelled here
as an `Except.error` outcome. -/
def startupSeeds (st : FuzzState) (seedFiles : Option (List (List Nat)))
    (execF : List Nat → Exec) : Except String FuzzState :=
  if st.corpus.length < 1 then loadInitialInputs st seedFiles execF
  else .ok st

/-- C6: seeds are loaded exactly when the corpus is empty (count < 1):
with a non-empty corpus the state passes through untouched; with an
empty corpus an unreadable seed directory or an empty set of loaded
seeds aborts fatally, and otherwise every seed file is run through the
executor and the feedback evaluator in order. -/
theorem c6_seed_loading (st : FuzzState) (seedFiles : Option (List (List Nat)))
    (execF : List Nat → Exec) :
    (1 ≤ st.corpus.length → startupSeeds st seedFiles execF = .ok st) ∧
      (st.corpus.length < 1 → seedFiles = none →
        startupSeeds st seedFiles execF = .error "Failed to load initial corpus") ∧
      (st.corpus.length < 1 → seedFiles = some [] →
        startupSeeds st seedFiles execF = .error "Failed to load initial corpus") ∧
      (∀ files, st.corpus.length < 1 → seedFiles = some files → files ≠ [] →
        startupSeeds st seedFiles execF =
          .ok (files.foldl (fun s f => processExecution s f (execF f)) st)) := by
  refine ⟨?_, ?_, ?_, ?_⟩
  · intro h
    have hnot : ¬ st.corpus.length < 1 := Nat.not_lt.mpr h
    simp [startupSeeds, hnot]
  · intro h hseed
    simp [startupSeeds, h, hseed, loadInitialInputs]
  · intro h hseed
    simp [startupSeeds, h, hseed, loadInitialInputs]
  · intro files h hseed hne
    simp [startupSeeds, h, hseed, loadInitialInputs, hne]

/-- C6 witness: with an empty corpus and one readable seed file, startup
loads it through the executor and the evaluator. -/
theorem c6_seed_loading_witness :
    startupSeeds ⟨[], [], ⟨[0], none⟩, ⟨[0], none⟩, none, []⟩ (some [[1]])
        (fun _ => ⟨[1], .completed, 2⟩) =
      .ok ([[1]].foldl
        (fun s f => processExecution s f
          ((fun _ => (⟨[1], .completed, 2⟩ : Exec)) f))
        ⟨[], [], ⟨[0], none⟩, ⟨[0], none⟩, none, []⟩) :=
  (c6_seed_loading ⟨[], [], ⟨[0], none⟩, ⟨[0], none⟩, none, []⟩ (some [[1]])
      (fun _ => ⟨[1], .completed, 2⟩)).2.2.2 [[1]] (by decide) rfl (by decide)

/-- The token-loading step of `main.rs`: exactly when no `Tokens`
metadata is present (`state.metadata_map().get::<Tokens>().is_none()`),
read the "./token" directory (`none` models an unreadable or missing
directory, whose error the `?` operator propagates fatally out of
`main`) and store the tokens as state metadata. -/
def startupTokens (st : FuzzState) (tokenDir : Option (List (List Nat))) :
    Except String FuzzState :=
  if st.tokens.isNone then
    match tokenDir with
    | none => .error "token directory unreadable"
    | some ts => .ok { st with tokens := some ts }
  else .ok st

/-- C7: the token dictionary is loaded exactly when no `Tokens` metadata
is present; in that case an unreadable or missing token directory is a
fatal error, and a readable one populates the metadata; when metadata is
already present, the directory is not consulted and the state passes
through untouched. -/
theorem c7_token_loading (st : FuzzState) (tokenDir : Option (List (List Nat))) :
    (st.tokens = none → tokenDir = none →
      startupTokens st tokenDir = .error "token directory unreadable") ∧
      (∀ ts, st.tokens = none → tokenDir = some ts →
        startupTokens st tokenDir = .ok { st with tokens := some ts }) ∧
      (∀ t, st.tokens = some t → startupTokens st tokenDir = .ok st) := by
  refine ⟨?_, ?_, ?_⟩
  · intro h hdir
    simp [startupTokens, h, hdir]
  · intro ts h hdir
    simp [startupTokens, h, hdir]
  · intro t h
    simp [startupTokens, h]

/-- C7 witness: concrete instantiations — a missing directory is fatal
when no metadata is present, and present metadata skips loading. -/
theorem c7_token_loading_witness :
    startupTokens ⟨[], [], ⟨[0], none⟩, ⟨[0], none⟩, none, []⟩ none =
        .error "token directory unreadable" ∧
      startupTokens ⟨[], [], ⟨[0], none⟩, ⟨[0], none⟩, some [[9]], []⟩ none =
        .ok ⟨[], [], ⟨[0], none⟩, ⟨[0], none⟩, some [[9]], []⟩ :=
  ⟨(c7_token_loading ⟨[], [], ⟨[0], none⟩, ⟨[0], none⟩, none, []⟩ none).1 rfl rfl,
   (c7_token_loading ⟨[], [], ⟨[0], none⟩, ⟨[0], none⟩, some [[9]], []⟩ none).2.2
     [[9]] rfl⟩

/-- The forkserver executor configuration built in `main.rs`: program
"test", AFL-style command line with the `@@` input-file placeholder,
coverage map size `MAP_SIZE`, wrapped by `TimeoutForkserverExecutor`
with `Duration::from_secs(5)` (stored here in milliseconds). -/
structure ExecutorConfig where
  program : String
  aflCmdline : List String
  coverageMapSize : Nat
  timeoutMs : Nat
deriving DecidableEq, Repr

/-- The executor value of `main.rs`. -/
def executor : ExecutorConfig :=
  { program := "test", aflCmdline := ["@@"], coverageMapSize := MAP_SIZE,
    timeoutMs := 5 * 1000 }

/-- The raw outcome of one forked child run, absent the timeout layer:
coverage written by the instrumentation, whether the child crashed, and
how long it ran. -/
structure RawOutcome where
  coverage : List Nat
  crashed : Bool
  duration : Nat
deriving DecidableEq, Repr

/-- Modelled from the spec: `TimeoutForkserverExecutor::run_target` —
run the target on the input and classify the run as `timedOut` when its
duration reaches the configured timeout (the ephemeral child is forcibly
killed), otherwise as `crashed` or `completed` from the exit status. -/
def runWithTimeout (cfg : ExecutorConfig) (target : List Nat → RawOutcome)
    (input : List Nat) : Exec :=
  let r := target input
  if cfg.timeoutMs ≤ r.duration then ⟨r.coverage, .timedOut, r.duration⟩
  else ⟨r.coverage, if r.crashed then .crashed else .completed, r.duration⟩

/-- C8: the executor's timeout is the fixed 5 seconds, and every run of
every input is bounded by that same threshold — a run is classified as
timed out precisely when its duration reaches 5 seconds, independent of
the input. -/
theorem c8_uniform_timeout :
    executor.timeoutMs = 5 * 1000 ∧
      ∀ (target : List Nat → RawOutcome) (input : List Nat),
        ((runWithTimeout executor target input).exitKind = ExitKind.timedOut ↔
          5 * 1000 ≤ (target input).duration) := by
  refine ⟨rfl, fun target input => ?_⟩
  by_cases h : 5 * 1000 ≤ (target input).duration
  · simp [runWithTimeout, executor, h]
  · cases hc : (target input).crashed <;>
      simp [runWithTimeout, executor, h, hc]

/-- Modelled from the spec: `StdRand` — the deterministic 64-bit
pseudo-random generator, seeded once at startup
(`StdRand::with_seed(current_nanos())`). -/
structure StdRand where
  s : Nat
deriving DecidableEq, Repr

/-- Modelled from the spec: one step of the pseudo-random generator (a
64-bit linear congruential step); returns the drawn value and the next
generator state. -/
def randNext (r : StdRand) : Nat × StdRand :=
  let x := (r.s * 6364136223846793005 + 1442695040888963407) % (2 ^ 64)
  (x, ⟨x⟩)

/-- Modelled from the spec: one havoc-style mutation operator application
— pseudo-randomly pick a bit flip, an arithmetic increment, a byte
deletion, a dictionary-token insertion (falling back to byte duplication
when the dictionary is empty), or a splice with another corpus entry
(the crossover mutators of `havoc_mutations`; a no-op when the corpus is
empty), at a pseudo-random position. -/
def applyOneOp (corpus tokens : List (List Nat)) (xs : List Nat)
    (r : StdRand) : List Nat × StdRand :=
  let (c, r1) := randNext r
  let (p, r2) := randNext r1
  let pos := p % (xs.length + 1)
  match c % 5 with
  | 0 => (xs.set pos ((xs.getD pos 0) ^^^ (1 <<< (c % 8))), r2)
  | 1 => (xs.set pos ((xs.getD pos 0 + 1) % 256), r2)
  | 2 => (xs.take pos ++ xs.drop (pos + 1), r2)
  | 3 =>
      match tokens with
      | [] => (xs.take (pos + 1) ++ xs.drop pos, r2)
      | t :: ts =>
          let (ti, r3) := randNext r2
          let tok := (t :: ts).getD (ti % (ts.length + 1)) t
          (xs.take pos ++ tok ++ xs.drop pos, r3)
  | _ =>
      match corpus with
      | [] => (xs, r2)
      | o :: os =>
          let (oi, r3) := randNext r2
          let other := (o :: os).getD (oi % (os.length + 1)) o
          let (q, r4) := randNext r3
          let cut := q % (other.length + 1)
          (xs.take pos ++ other.drop cut, r4)

/-- Modelled from the spec: apply `n` stacked mutation operators in
sequence to the bytes, threading the generator. -/
def applyOps (corpus tokens : List (List Nat)) :
    Nat → List Nat → StdRand → List Nat × StdRand
  | 0, xs, r => (xs, r)
  | n + 1, xs, r =>
      let (ys, r') := applyOneOp corpus tokens xs r
      applyOps corpus tokens n ys r'

/-- Modelled from the spec: one round of the scheduled havoc/token
mutator — draw a stack size, then apply that many operators to a clone
of the parent's bytes, yielding one child. -/
def mutateInput (r : StdRand) (corpus tokens : List (List Nat))
    (parent : List Nat) : List Nat × StdRand :=
  let (k, r1) := randNext r
  applyOps corpus tokens (1 + k % 8) parent r1

/-- The state visible to the mutational stage: the generator, the
scheduled parent input, the token dictionary, the corpus contents the
splice mutator may draw a second entry from, and a field irrelevant to
mutation (the executions counter). -/
structure StageState where
  rand : StdRand
  parent : List Nat
  tokens : List (List Nat)
  corpus : List (List Nat)
  executions : Nat
deriving DecidableEq, Repr

/-- Modelled from the spec: the core of `StdMutationalStage` — produce
`n` mutated children of the parent, threading the generator state. -/
def stageCore (n : Nat) (r : StdRand) (corpus tokens : List (List Nat))
    (parent : List Nat) : List (List Nat) × StdRand :=
  match n with
  | 0 => ([], r)
  | n + 1 =>
      let (child, r') := mutateInput r corpus tokens parent
      let (rest, r'') := stageCore n r' corpus tokens parent
      (child :: rest, r'')

/-- Modelled from the spec: the mutational stage run on a stage state —
the sequence of children produced for the scheduled parent. -/
def runMutationalStage (n : Nat) (st : StageState) : List (List Nat) × StdRand :=
  stageCore n st.rand st.corpus st.tokens st.parent

/-- C9 (counterexample): two stage states with the same seed, the same
parent and the same (empty) token dictionary but different corpus
contents produce different children — the splice-with-corpus-entry
mutator makes the stage's output depend on the corpus contents,
refuting determinism as a function of the seed and the parent alone. -/
theorem c9_mutation_counterexample :
    (StageState.mk ⟨0⟩ [1, 2, 3] [] [[9, 9, 9, 9]] 0).rand =
        (StageState.mk ⟨0⟩ [1, 2, 3] [] [[5]] 0).rand ∧
      (StageState.mk ⟨0⟩ [1, 2, 3] [] [[9, 9, 9, 9]] 0).parent =
        (StageState.mk ⟨0⟩ [1, 2, 3] [] [[5]] 0).parent ∧
      runMutationalStage 2 (StageState.mk ⟨0⟩ [1, 2, 3] [] [[9, 9, 9, 9]] 0) ≠
        runMutationalStage 2 (StageState.mk ⟨0⟩ [1, 2, 3] [] [[5]] 0) := by
  decide

/-- C9 (amended): the mutational stage is deterministic as a function of
the generator state (the seed), the parent input, the token dictionary,
and the corpus contents available to the splice mutator — two stage
states agreeing on those produce exactly the same sequence of mutated
children, whatever their other fields. -/
theorem c9_mutation_deterministic (n : Nat) (s1 s2 : StageState)
    (hr : s1.rand = s2.rand) (hp : s1.parent = s2.parent)
    (ht : s1.tokens = s2.tokens) (hc : s1.corpus = s2.corpus) :
    runMutationalStage n s1 = runMutationalStage n s2 := by
  unfold runMutationalStage
  rw [hr, hp, ht, hc]

/-- C9 witness: two stage states sharing seed, parent, dictionary and
corpus but differing in the executions counter produce the same
children. -/
theorem c9_mutation_deterministic_witness :
    runMutationalStage 3 ⟨⟨42⟩, [1, 2], [[3]], [[4, 4]], 0⟩ =
      runMutationalStage 3 ⟨⟨42⟩, [1, 2], [[3]], [[4, 4]], 99⟩ :=
  c9_mutation_deterministic 3 ⟨⟨42⟩, [1, 2], [[3]], [[4, 4]], 0⟩
    ⟨⟨42⟩, [1, 2], [[3]], [[4, 4]], 99⟩ rfl rfl rfl rfl

/-- C10: the solutions store is rooted at the fixed path "./timeouts";
every execution the objective evaluator classifies as an objective is
appended to Solutions and durably written under that path, while a
timed-out execution is never classified as an objective and leaves both
the Solutions store and the directory untouched. -/
theorem c10_solutions_directory (st : FuzzState) (inp : List Nat) (e : Exec) :
    solutionsPath = "./timeouts" ∧
      ((evalFb objective st.obj e).1 = true →
        (processExecution st inp e).solutions = st.solutions ++ [⟨inp, none⟩] ∧
          (processExecution st inp e).diskWrites =
            st.diskWrites ++ [(solutionsPath, ⟨inp, none⟩)]) ∧
      (e.exitKind = ExitKind.timedOut →
        (processExecution st inp e).solutions = st.solutions ∧
          (processExecution st inp e).diskWrites = st.diskWrites) := by
  refine ⟨rfl, ?_, ?_⟩
  · intro h
    constructor <;> simp [processExecution, h]
  · intro h
    have hv : (evalFb objective st.obj e).1 = false := by
      rw [evalFb_objective_verdict]
      simp [h]
    cases hf : (evalFb feedback st.fb e).1 <;>
      constructor <;> simp [processExecution, hv, hf]

/-- C10 witness: a crashing, novel-coverage execution is written under
"./timeouts", and a timed-out execution is not. -/
theorem c10_solutions_directory_witness :
    ((processExecution ⟨[], [], ⟨[0], none⟩, ⟨[0], none⟩, none, []⟩ [7]
          ⟨[1], .crashed, 5⟩).solutions = [] ++ [⟨[7], none⟩] ∧
        (processExecution ⟨[], [], ⟨[0], none⟩, ⟨[0], none⟩, none, []⟩ [7]
          ⟨[1], .crashed, 5⟩).diskWrites = [] ++ [(solutionsPath, ⟨[7], none⟩)]) ∧
      ((processExecution ⟨[], [], ⟨[0], none⟩, ⟨[0], none⟩, none, []⟩ [7]
          ⟨[1], .timedOut, 5⟩).solutions = [] ∧
        (processExecution ⟨[], [], ⟨[0], none⟩, ⟨[0], none⟩, none, []⟩ [7]
          ⟨[1], .timedOut, 5⟩).diskWrites = []) :=
  ⟨(c10_solutions_directory ⟨[], [], ⟨[0], none⟩, ⟨[0], none⟩, none, []⟩ [7]
      ⟨[1], .crashed, 5⟩).2.1 (by decide),
   (c10_solutions_directory ⟨[], [], ⟨[0], none⟩, ⟨[0], none⟩, none, []⟩ [7]
      ⟨[1], .timedOut, 5⟩).2.2 rfl⟩
